import Mathlib

/-!
Verification of the Adduce feed module (`src/lib/feed.rs`).

The file-system interface (`std::fs`) is embedded as an explicit state:
paths are represented structurally, mirroring the fixed path templates of
the source (`feed/documents/<name>`, `feed/conf.toml`,
`feed/export/<name>.html`, `feed/export/feed.xml`), which are pairwise
distinct literal strings with no path normalisation applied anywhere in
the code.  External functions the module calls but does not define
(the TOML parser `toml::from_str`, the Markdown renderer, the RSS
serialiser `Channel::to_string`) are passed in as an explicit record of
pure functions.
-/

namespace Adduce

/-- A file path, represented structurally after the fixed path templates of
`feed.rs`. `docFile n` stands for `feed/documents/<n>`, `confToml` for
`feed/conf.toml`, `exportHtml n` for `feed/export/<n>.html`, `feedXml` for
`feed/export/feed.xml`. -/
inductive Path where
  | docFile (name : String)
  | confToml
  | exportHtml (name : String)
  | feedXml
  | other (s : String)
deriving DecidableEq

/-- Contents of a file: `text s` reads as the UTF-8 string `s`;
`binary` exists on disk but `fs::read_to_string` fails on it. -/
inductive FileData where
  | text (s : String)
  | binary
deriving DecidableEq

/-- The file-system state: an association list of files, plus the listing
of `feed/documents/` as returned by `fs::read_dir` (`none` when that call
fails, e.g. the directory is absent). -/
structure FsState where
  files : List (Path × FileData)
  docDir : Option (List String)
deriving DecidableEq

/-- Association-list lookup over the files. -/
def findFile : List (Path × FileData) → Path → Option FileData
  | [], _ => none
  | (q, d) :: rest, p => if q = p then some d else findFile rest p

/-- The raw entry at path `p`, i.e. `fs::metadata(p).is_ok()` when some. -/
def FsState.lookup (fs : FsState) (p : Path) : Option FileData :=
  findFile fs.files p

/-- Reading as text, `fs::read_to_string(p)`: succeeds exactly when the file exists and is
valid UTF-8 text. -/
def FsState.readToString (fs : FsState) (p : Path) : Option String :=
  match fs.lookup p with
  | some (.text s) => some s
  | _ => none

/-- Writing a file, `fs::write(p, s)`: the new entry shadows any previous one. -/
def FsState.writeFile (fs : FsState) (p : Path) (s : String) : FsState :=
  { fs with files := (p, .text s) :: fs.files }

/-- Modelled from the spec: the `Object` struct of `crate::config::toml`
(not under src).  A Block is a typed content reference: `content_file` an
optional path to a source file, `format` an optional tag; all other fields
default to empty/absent and are not consulted by the feed module. -/
structure Object where
  content_file : Option Path := none
  format : Option String := none
deriving DecidableEq

/-- Modelled from the spec: the `Main` struct of `crate::config::toml`
(not under src).  A Section is an ordered sequence of Blocks. -/
structure Main where
  block : List Object
deriving DecidableEq

/-- Modelled from the spec: the `Conf` struct of `crate::config::toml`
(not under src).  The Manifest: feed metadata as optional fields — absent
is distinguishable from empty — plus the optional `main` section. -/
structure Conf where
  title : Option String := none
  link : Option String := none
  description : Option String := none
  language : Option String := none
  copyright : Option String := none
  managing_editor : Option String := none
  webmaster : Option String := none
  ttl : Option String := none
  main : Option Main := none
deriving DecidableEq

/-- One RSS item as built by `ItemBuilder` (fields the module sets). -/
structure FeedItem where
  title : Option String
  description : Option String
deriving DecidableEq

/-- The RSS channel as built by `ChannelBuilder` (fields the module sets). -/
structure Channel where
  title : String
  link : String
  description : String
  language : Option String
  copyright : Option String
  managing_editor : Option String
  webmaster : Option String
  ttl : Option String
  generator : Option String
  items : List FeedItem
deriving DecidableEq

/-- The external pure functions the feed module calls but does not define:
the TOML parser (`toml::from_str::<Conf>`; `none` models a parse error),
the Markdown-to-HTML converter, and the RSS serialiser
(`Channel::to_string`). -/
structure Ext where
  parseConf : String → Option Conf
  mdToHtml : String → String
  serializeChannel : Channel → String

/-- The block renderer's failure conditions (spec §4.2 / §7). -/
inductive RenderError where
  | sourceUnreadable
  | unsupportedFormat
  | formatMissing
deriving DecidableEq

/-- Modelled from the spec: the per-block renderer inside
`Conf::to_html` (`crate::config::toml`, not under src).  By `format`:
`"md"` reads `content_file` and converts Markdown to HTML, failing with
`sourceUnreadable` when the file cannot be read; any other declared value
fails with `unsupportedFormat` without emitting the source bytes; an
absent `format` fails with `formatMissing`.  A block with no
`content_file` renders as empty output. -/
def render (ext : Ext) (readF : Path → Option String) (b : Object) :
    Except RenderError String :=
  match b.format with
  | none => .error .formatMissing
  | some fmt =>
    if fmt = "md" then
      match b.content_file with
      | none => .ok ""
      | some p =>
        match readF p with
        | none => .error .sourceUnreadable
        | some s => .ok (ext.mdToHtml s)
    else .error .unsupportedFormat

/-- Render a list of blocks in order, concatenating the fragments;
the first failing block aborts the whole render. -/
def renderBlocks (ext : Ext) (readF : Path → Option String) :
    List Object → Except RenderError String
  | [] => .ok ""
  | b :: rest =>
    match render ext readF b with
    | .error e => .error e
    | .ok h =>
      match renderBlocks ext readF rest with
      | .error e => .error e
      | .ok t => .ok (h ++ t)

/-- Modelled from the spec: `Conf::to_html` (`crate::config::toml`, not
under src).  Renders every block of the `main` section in order and
concatenates the fragments (spec §4.3 step 4); an absent `main` yields
empty output. -/
def renderAll (ext : Ext) (readF : Path → Option String) (c : Conf) :
    Except RenderError String :=
  match c.main with
  | none => .ok ""
  | some m => renderBlocks ext readF m.block

/-- The append step of `cli_export` (feed.rs lines 149-154): create
`main` holding only the new block when absent, otherwise push the block
at the end of the existing block list. -/
def withAppendedBlock (c : Conf) (b : Object) : Conf :=
  match c.main with
  | none => { c with main := some { block := [b] } }
  | some m => { c with main := some { block := m.block ++ [b] } }

/-- The paths referenced by the manifest's blocks (used to state which
files an export invocation reads). -/
def Conf.blockPaths (c : Conf) : List Path :=
  match c.main with
  | none => []
  | some m => m.block.filterMap (fun b => b.content_file)

/-- The observable outcome of one `cli_export` invocation.
`panicConfParse` marks the `.unwrap()` on `toml::from_str` at feed.rs
line 136: a malformed manifest makes the process panic. -/
inductive ExportOutcome where
  | documentNotFound
  | configMissing
  | panicConfParse
  | renderFailed (e : RenderError)
  | success (html : String)
deriving DecidableEq

/-- The export operation `cli_export` (feed.rs lines 128-162): check the source document
exists, read and parse the manifest, append a synthetic `"md"` block
pointing at the document, render, and write
`feed/export/<document>.html`.  Returns the outcome and the resulting
file system. -/
def cli_export (ext : Ext) (fs : FsState) (document : String) :
    ExportOutcome × FsState :=
  match fs.lookup (.docFile (document ++ ".md")) with
  | none => (.documentNotFound, fs)
  | some _ =>
    match fs.readToString .confToml with
    | none => (.configMissing, fs)
    | some content =>
      match ext.parseConf content with
      | none => (.panicConfParse, fs)
      | some conf =>
        let txt : Object :=
          { content_file := some (.docFile (document ++ ".md")),
            format := some "md" }
        let toml := withAppendedBlock conf txt
        match renderAll ext fs.readToString toml with
        | .error e => (.renderFailed e, fs)
        | .ok html => (.success html, fs.writeFile (.exportHtml document) html)

/-- The names of the absent required feed fields, in the order
`cli_rss` collects them (feed.rs lines 221-231). -/
def missingFields (c : Conf) : List String :=
  (if c.title = none then ["title"] else []) ++
  (if c.link = none then ["link"] else []) ++
  (if c.description = none then ["description"] else [])

/-- The items built from the document-directory listing (feed.rs lines
191-202): one per entry, `title` the file name, `description` the file
content with `unwrap_or_default` (empty string when the read fails). -/
def mkItems (fs : FsState) (names : List String) : List FeedItem :=
  names.map (fun n =>
    { title := some n,
      description := some ((fs.readToString (.docFile n)).getD "") })

/-- The observable outcome of one `cli_rss` invocation.
`panicDirMissing` marks the `.unwrap()` on `fs::read_dir` at feed.rs
line 191: an absent document directory makes the process panic.
`missingFields` carries the absent required field names reported joined
in one message. -/
inductive RssOutcome where
  | panicDirMissing
  | configMissing
  | configMalformed
  | missingFields (fields : List String)
  | success (ch : Channel)
deriving DecidableEq

/-- The feed synthesis `cli_rss` (feed.rs lines 188-259): build one item per document
directory entry, read and parse the manifest, validate the three
required fields collecting every absent one, then build the channel
(optional fields passed through, generator `"Adduce"`) and write
`feed/export/feed.xml`. -/
def cli_rss (ext : Ext) (fs : FsState) : RssOutcome × FsState :=
  match fs.docDir with
  | none => (.panicDirMissing, fs)
  | some names =>
    let items := mkItems fs names
    match fs.readToString .confToml with
    | none => (.configMissing, fs)
    | some content =>
      match ext.parseConf content with
      | none => (.configMalformed, fs)
      | some conf =>
        match conf.title, conf.link, conf.description with
        | some t, some l, some d =>
          let channel : Channel :=
            { title := t, link := l, description := d,
              language := conf.language, copyright := conf.copyright,
              managing_editor := conf.managing_editor,
              webmaster := conf.webmaster, ttl := conf.ttl,
              generator := some "Adduce", items := items }
          (.success channel, fs.writeFile .feedXml (ext.serializeChannel channel))
        | _, _, _ => (.missingFields (missingFields conf), fs)

/-- A concrete external-function record for evaluating the model on
concrete inputs: a fixed parse result, identity Markdown rendering, and
an empty serialisation. -/
def mkExt (f : String → Option Conf) : Ext :=
  { parseConf := f, mdToHtml := id, serializeChannel := fun _ => "" }

/-- C3: for every manifest whose `main` section list is absent, appending
a block (as `cli_export` does for the synthetic document block) produces
a manifest whose section list contains exactly one section containing
exactly the appended block. -/
theorem append_block_absent_main (c : Conf) (b : Object) (h : c.main = none) :
    (withAppendedBlock c b).main = some { block := [b] } := by
  simp [withAppendedBlock, h]

theorem append_block_absent_main_witness :
    ({} : Conf).main = none ∧
      (withAppendedBlock {} { format := some "md" }).main =
        some { block := [{ format := some "md" }] } :=
  ⟨rfl, append_block_absent_main {} { format := some "md" } rfl⟩

/-- C4: for every manifest with an existing `main` section, appending a
block preserves all prior blocks unmodified and in their original order
and places the appended block last: the resulting block list is exactly
the old one with the new block concatenated at the end. -/
theorem append_block_existing_main (c : Conf) (b : Object) (m : Main)
    (h : c.main = some m) :
    (withAppendedBlock c b).main = some { block := m.block ++ [b] } ∧
      (m.block ++ [b]).take m.block.length = m.block ∧
      (m.block ++ [b]).getLast? = some b := by
  refine ⟨by simp [withAppendedBlock, h], List.take_left _ _, ?_⟩
  simp [List.getLast?_append]

theorem append_block_existing_main_witness :
    (withAppendedBlock
        { main := some { block := [{ format := some "html" }] } }
        { format := some "md" }).main =
      some { block := [{ format := some "html" }, { format := some "md" }] } ∧
      ([({ format := some "html" } : Object)] ++ [({ format := some "md" } : Object)]).take 1 =
        [{ format := some "html" }] ∧
      ([({ format := some "html" } : Object)] ++ [({ format := some "md" } : Object)]).getLast? =
        some { format := some "md" } :=
  append_block_existing_main
    { main := some { block := [{ format := some "html" }] } }
    { format := some "md" } { block := [{ format := some "html" }] } rfl

/-- C5: for every document identifier whose source file
`feed/documents/<id>.md` does not exist, `cli_export` fails reporting the
document does not exist (the `DocumentNotFound` condition) and leaves the
file system unchanged: no file is created or modified under
`feed/export`. -/
theorem export_document_not_found (ext : Ext) (fs : FsState) (doc : String)
    (h : fs.lookup (.docFile (doc ++ ".md")) = none) :
    cli_export ext fs doc = (.documentNotFound, fs) := by
  simp [cli_export, h]

theorem export_document_not_found_witness :
    cli_export (mkExt fun _ => none) { files := [], docDir := none } "missing-doc" =
      (.documentNotFound, { files := [], docDir := none }) :=
  export_document_not_found (mkExt fun _ => none)
    { files := [], docDir := none } "missing-doc" rfl

/-- C6: for every block whose `format` tag is present but not a
recognized value, rendering fails with `unsupportedFormat` and never
emits the referenced source bytes as output; for every block whose
`format` tag is absent, rendering fails with `formatMissing`. -/
theorem render_format_errors (ext : Ext) (readF : Path → Option String)
    (b : Object) :
    (∀ fmt, b.format = some fmt → fmt ≠ "md" →
        render ext readF b = .error .unsupportedFormat) ∧
    (∀ fmt s, b.format = some fmt → fmt ≠ "md" →
        render ext readF b ≠ .ok s) ∧
    (b.format = none → render ext readF b = .error .formatMissing) := by
  refine ⟨fun fmt hf hne => by simp [render, hf, hne], ?_, fun hf => by simp [render, hf]⟩
  intro fmt s hf hne
  simp [render, hf, hne]

theorem render_format_errors_witness :
    render (mkExt fun _ => none) (fun _ => some "raw bytes")
        { content_file := some (.docFile "a.md"), format := some "pdf" } =
      .error .unsupportedFormat ∧
    render (mkExt fun _ => none) (fun _ => some "raw bytes")
        { content_file := some (.docFile "a.md") } =
      .error .formatMissing :=
  ⟨(render_format_errors (mkExt fun _ => none) (fun _ => some "raw bytes")
      { content_file := some (.docFile "a.md"), format := some "pdf" }).1
      "pdf" rfl (by decide),
   (render_format_errors (mkExt fun _ => none) (fun _ => some "raw bytes")
      { content_file := some (.docFile "a.md") }).2.2 rfl⟩

/-- C7 counter-evidence: the code does not handle every failure at the
operation boundary.  A present but unparsable manifest makes
`cli_export` panic (the `.unwrap()` on `toml::from_str`, feed.rs line
136), and an absent document directory makes `cli_rss` panic (the
`.unwrap()` on `fs::read_dir`, feed.rs line 191), instead of reporting
and returning normally. -/
theorem boundary_failures_panic :
    (cli_export (mkExt fun _ => none)
        { files := [(.docFile "post.md", .text "# post"),
                    (.confToml, .text "not valid toml")],
          docDir := some ["post.md"] } "post").1 = .panicConfParse ∧
    (cli_rss (mkExt fun _ => none) { files := [], docDir := none }).1 =
      .panicDirMissing := by
  exact ⟨rfl, rfl⟩

/-- The channel `cli_rss` builds once the three required fields are
present: required fields unwrapped, optional fields passed through,
generator `"Adduce"`, one item per directory entry. -/
def builtChannel (fs : FsState) (names : List String) (conf : Conf)
    (t l d : String) : Channel :=
  { title := t, link := l, description := d,
    language := conf.language, copyright := conf.copyright,
    managing_editor := conf.managing_editor, webmaster := conf.webmaster,
    ttl := conf.ttl, generator := some "Adduce", items := mkItems fs names }

/-- Helper: on the success path `cli_rss` returns the built channel and
writes its serialisation to `feed/export/feed.xml`. -/
theorem cli_rss_success_eq (ext : Ext) (fs : FsState) (names : List String)
    (content : String) (conf : Conf) (t l d : String)
    (hdir : fs.docDir = some names)
    (hread : fs.readToString .confToml = some content)
    (hparse : ext.parseConf content = some conf)
    (ht : conf.title = some t) (hl : conf.link = some l)
    (hd : conf.description = some d) :
    cli_rss ext fs = (.success (builtChannel fs names conf t l d),
      fs.writeFile .feedXml
        (ext.serializeChannel (builtChannel fs names conf t l d))) := by
  simp [cli_rss, hdir, hread, hparse, ht, hl, hd, builtChannel]

/-- C1: whenever the parsed manifest lacks at least one of the required
fields `title`, `link`, `description`, `cli_rss` aborts with the file
system unchanged — no feed file is written — and reports the names of
exactly the absent required fields together in one message, not just the
first one found. -/
theorem rss_missing_required_fields (ext : Ext) (fs : FsState)
    (names : List String) (content : String) (conf : Conf)
    (hdir : fs.docDir = some names)
    (hread : fs.readToString .confToml = some content)
    (hparse : ext.parseConf content = some conf)
    (hmiss : conf.title = none ∨ conf.link = none ∨ conf.description = none) :
    cli_rss ext fs = (.missingFields (missingFields conf), fs) ∧
      missingFields conf ≠ [] ∧
      ("title" ∈ missingFields conf ↔ conf.title = none) ∧
      ("link" ∈ missingFields conf ↔ conf.link = none) ∧
      ("description" ∈ missingFields conf ↔ conf.description = none) := by
  rcases ht : conf.title with _ | t <;>
    rcases hl : conf.link with _ | l <;>
      rcases hd : conf.description with _ | d <;>
        simp_all [cli_rss, missingFields]

theorem rss_missing_required_fields_witness :
    cli_rss (mkExt fun _ => some { title := some "My Feed" })
        { files := [(.confToml, .text "title = My Feed")],
          docDir := some [] } =
      (.missingFields ["link", "description"],
        { files := [(.confToml, .text "title = My Feed")], docDir := some [] }) ∧
      (["link", "description"] : List String) ≠ [] := by
  have h := rss_missing_required_fields
    (mkExt fun _ => some { title := some "My Feed" })
    { files := [(.confToml, .text "title = My Feed")], docDir := some [] }
    [] "title = My Feed" { title := some "My Feed" }
    rfl rfl rfl (Or.inr (Or.inl rfl))
  exact ⟨h.1, by decide⟩

/-- C2: when `cli_rss` succeeds on a directory listing of `n` documents,
the channel carries exactly `n` items, and the item at each position
carries the document's file name as its title and the document's exact
raw file content as its description, with no Markdown rendering
applied. -/
theorem rss_one_entry_per_document (ext : Ext) (fs : FsState)
    (names : List String) (content : String) (conf : Conf) (t l d : String)
    (i : Nat) (n c : String)
    (hdir : fs.docDir = some names)
    (hread : fs.readToString .confToml = some content)
    (hparse : ext.parseConf content = some conf)
    (ht : conf.title = some t) (hl : conf.link = some l)
    (hd : conf.description = some d)
    (hn : names[i]? = some n)
    (hc : fs.readToString (.docFile n) = some c) :
    ∃ ch fs2, cli_rss ext fs = (.success ch, fs2) ∧
      ch.items.length = names.length ∧
      ch.items[i]? = some { title := some n, description := some c } := by
  refine ⟨builtChannel fs names conf t l d, _,
    cli_rss_success_eq ext fs names content conf t l d hdir hread hparse ht hl hd,
    ?_, ?_⟩
  · simp [builtChannel, mkItems]
  · simp [builtChannel, mkItems, List.getElem?_map, hn, hc]

theorem rss_one_entry_per_document_witness :
    ∃ ch fs2,
      cli_rss
        (mkExt fun _ => some { title := some "t", link := some "l", description := some "d" })
        { files := [(.confToml, .text "c"),
                    (.docFile "a.md", .text "# alpha"),
                    (.docFile "b.md", .text "# beta"),
                    (.docFile "c.md", .text "# gamma")],
          docDir := some ["a.md", "b.md", "c.md"] } = (.success ch, fs2) ∧
      ch.items.length = 3 ∧
      ch.items[1]? = some { title := some "b.md", description := some "# beta" } :=
  rss_one_entry_per_document
    (mkExt fun _ => some { title := some "t", link := some "l", description := some "d" })
    { files := [(.confToml, .text "c"),
                (.docFile "a.md", .text "# alpha"),
                (.docFile "b.md", .text "# beta"),
                (.docFile "c.md", .text "# gamma")],
      docDir := some ["a.md", "b.md", "c.md"] }
    ["a.md", "b.md", "c.md"] "c"
    { title := some "t", link := some "l", description := some "d" }
    "t" "l" "d" 1 "b.md" "# beta" rfl rfl rfl rfl rfl rfl rfl rfl

/-- C8: for every manifest passing required-field validation, the
synthesized channel carries the generator identity string `"Adduce"`
unconditionally, and each optional field `language`, `copyright`,
`managing_editor`, `webmaster`, `ttl` is passed through verbatim: present
values appear unchanged, absent values stay absent (not defaulted). -/
theorem rss_channel_metadata (ext : Ext) (fs : FsState)
    (names : List String) (content : String) (conf : Conf) (t l d : String)
    (hdir : fs.docDir = some names)
    (hread : fs.readToString .confToml = some content)
    (hparse : ext.parseConf content = some conf)
    (ht : conf.title = some t) (hl : conf.link = some l)
    (hd : conf.description = some d) :
    ∃ ch, (cli_rss ext fs).1 = .success ch ∧
      ch.generator = some "Adduce" ∧
      ch.title = t ∧ ch.link = l ∧ ch.description = d ∧
      ch.language = conf.language ∧ ch.copyright = conf.copyright ∧
      ch.managing_editor = conf.managing_editor ∧
      ch.webmaster = conf.webmaster ∧ ch.ttl = conf.ttl := by
  refine ⟨builtChannel fs names conf t l d, ?_,
    rfl, rfl, rfl, rfl, rfl, rfl, rfl, rfl, rfl⟩
  rw [cli_rss_success_eq ext fs names content conf t l d hdir hread hparse ht hl hd]

theorem rss_channel_metadata_witness :
    ∃ ch,
      (cli_rss
        (mkExt fun _ => some { title := some "t", link := some "l",
                               description := some "d", language := some "en",
                               ttl := some "60" })
        { files := [(.confToml, .text "c")], docDir := some [] }).1 =
        .success ch ∧
      ch.generator = some "Adduce" ∧ ch.title = "t" ∧ ch.link = "l" ∧
      ch.description = "d" ∧ ch.language = some "en" ∧ ch.copyright = none ∧
      ch.managing_editor = none ∧ ch.webmaster = none ∧ ch.ttl = some "60" :=
  rss_channel_metadata
    (mkExt fun _ => some { title := some "t", link := some "l",
                           description := some "d", language := some "en",
                           ttl := some "60" })
    { files := [(.confToml, .text "c")], docDir := some [] }
    [] "c"
    { title := some "t", link := some "l", description := some "d",
      language := some "en", ttl := some "60" }
    "t" "l" "d" rfl rfl rfl rfl rfl rfl

/-- C10: a directory entry whose content cannot be read as a string
(missing file or invalid UTF-8) neither makes `cli_rss` fail nor gets
skipped: with a validated manifest the run still succeeds, the item
count still matches the listing, and the entry's item carries the empty
string as its description. -/
theorem rss_unreadable_entry (ext : Ext) (fs : FsState)
    (names : List String) (content : String) (conf : Conf) (t l d : String)
    (i : Nat) (n : String)
    (hdir : fs.docDir = some names)
    (hread : fs.readToString .confToml = some content)
    (hparse : ext.parseConf content = some conf)
    (ht : conf.title = some t) (hl : conf.link = some l)
    (hd : conf.description = some d)
    (hn : names[i]? = some n)
    (hc : fs.readToString (.docFile n) = none) :
    ∃ ch fs2, cli_rss ext fs = (.success ch, fs2) ∧
      ch.items.length = names.length ∧
      ch.items[i]? = some { title := some n, description := some "" } := by
  refine ⟨builtChannel fs names conf t l d, _,
    cli_rss_success_eq ext fs names content conf t l d hdir hread hparse ht hl hd,
    ?_, ?_⟩
  · simp [builtChannel, mkItems]
  · simp [builtChannel, mkItems, List.getElem?_map, hn, hc]

theorem rss_unreadable_entry_witness :
    ∃ ch fs2,
      cli_rss
        (mkExt fun _ => some { title := some "t", link := some "l", description := some "d" })
        { files := [(.confToml, .text "c"),
                    (.docFile "bad.md", .binary)],
          docDir := some ["bad.md"] } = (.success ch, fs2) ∧
      ch.items.length = 1 ∧
      ch.items[0]? = some { title := some "bad.md", description := some "" } :=
  rss_unreadable_entry
    (mkExt fun _ => some { title := some "t", link := some "l", description := some "d" })
    { files := [(.confToml, .text "c"), (.docFile "bad.md", .binary)],
      docDir := some ["bad.md"] }
    ["bad.md"] "c"
    { title := some "t", link := some "l", description := some "d" }
    "t" "l" "d" 0 "bad.md" rfl rfl rfl rfl rfl rfl rfl rfl

/-- Helper: writing one file leaves the raw entry at every other path
unchanged. -/
theorem lookup_writeFile_ne (fs : FsState) (p q : Path) (v : String)
    (h : q ≠ p) : (fs.writeFile p v).lookup q = fs.lookup q := by
  simp [FsState.writeFile, FsState.lookup, findFile, Ne.symm h]

/-- Helper: writing one file leaves the text read at every other path
unchanged. -/
theorem readToString_writeFile_ne (fs : FsState) (p q : Path) (v : String)
    (h : q ≠ p) : (fs.writeFile p v).readToString q = fs.readToString q := by
  simp [FsState.readToString, lookup_writeFile_ne fs p q v h]

/-- Helper: the block renderer only consults the file system at the
block's `content_file` path. -/
theorem render_congr (ext : Ext) (r1 r2 : Path → Option String) (b : Object)
    (h : ∀ p, b.content_file = some p → r1 p = r2 p) :
    render ext r1 b = render ext r2 b := by
  obtain ⟨cf, fmt⟩ := b
  rcases fmt with _ | fmt
  · rfl
  · rcases cf with _ | p
    · rfl
    · have hp := h p rfl
      by_cases hm : fmt = "md"
      · subst hm
        simp [render, hp]
      · simp [render, hm]

/-- Helper: rendering a block list only consults the file system at the
blocks' `content_file` paths. -/
theorem renderBlocks_congr (ext : Ext) (r1 r2 : Path → Option String) :
    ∀ bs : List Object,
      (∀ b ∈ bs, ∀ p, b.content_file = some p → r1 p = r2 p) →
      renderBlocks ext r1 bs = renderBlocks ext r2 bs
  | [], _ => rfl
  | b :: rest, h => by
    simp only [renderBlocks]
    rw [render_congr ext r1 r2 b (fun p hp => h b (List.mem_cons_self b rest) p hp),
      renderBlocks_congr ext r1 r2 rest
        (fun b2 hb2 p hp => h b2 (List.mem_cons_of_mem b hb2) p hp)]

/-- Helper: the whole render only consults the file system at the
manifest's block paths. -/
theorem renderAll_congr (ext : Ext) (r1 r2 : Path → Option String) (c : Conf)
    (h : ∀ p ∈ c.blockPaths, r1 p = r2 p) :
    renderAll ext r1 c = renderAll ext r2 c := by
  rcases hm : c.main with _ | m
  · simp [renderAll, hm]
  · simp only [renderAll, hm]
    refine renderBlocks_congr ext r1 r2 m.block ?_
    intro b hb p hp
    refine h p ?_
    simp only [Conf.blockPaths, hm]
    exact List.mem_filterMap.mpr ⟨b, hb, hp⟩

/-- Helper: the block paths after appending a block are the old block
paths followed by the new block's path, if any. -/
theorem blockPaths_withAppendedBlock (c : Conf) (b : Object) :
    (withAppendedBlock c b).blockPaths = c.blockPaths ++ b.content_file.toList := by
  rcases hm : c.main with _ | m <;> rcases hb : b.content_file with _ | p <;>
    simp [withAppendedBlock, Conf.blockPaths, hm, hb, List.filterMap_append,
      List.filterMap_cons]

/-- C9: with its inputs unchanged — the source document, the manifest,
and the manifest's referenced block sources, expressed by requiring that
no manifest block reads the export output path itself — running
`cli_export` twice produces the same outcome both times, in particular a
byte-identical output file: export is a deterministic function of its
declared inputs. -/
theorem export_idempotent (ext : Ext) (fs : FsState) (doc : String)
    (hconf : ∀ conf : Conf,
      (fs.readToString .confToml).bind ext.parseConf = some conf →
      Path.exportHtml doc ∉ conf.blockPaths) :
    (cli_export ext (cli_export ext fs doc).2 doc).1 = (cli_export ext fs doc).1 := by
  rcases h1 : fs.lookup (.docFile (doc ++ ".md")) with _ | fd
  · simp [cli_export, h1]
  rcases h2 : fs.readToString .confToml with _ | content
  · simp [cli_export, h1, h2]
  rcases h3 : ext.parseConf content with _ | conf
  · simp [cli_export, h1, h2, h3]
  have hnotin : Path.exportHtml doc ∉ conf.blockPaths := by
    apply hconf
    rw [h2]
    simpa using h3
  rcases h4 : renderAll ext fs.readToString
      (withAppendedBlock conf
        { content_file := some (.docFile (doc ++ ".md")), format := some "md" })
      with e | html
  · simp [cli_export, h1, h2, h3, h4]
  have hfs2 : (cli_export ext fs doc).2 = fs.writeFile (.exportHtml doc) html := by
    simp [cli_export, h1, h2, h3, h4]
  have hout1 : (cli_export ext fs doc).1 = .success html := by
    simp [cli_export, h1, h2, h3, h4]
  rw [hfs2, hout1]
  have e1 : (fs.writeFile (.exportHtml doc) html).lookup (.docFile (doc ++ ".md")) =
      some fd :=
    (lookup_writeFile_ne fs (.exportHtml doc) (.docFile (doc ++ ".md")) html
      (by simp)).trans h1
  have e2 : (fs.writeFile (.exportHtml doc) html).readToString .confToml =
      some content :=
    (readToString_writeFile_ne fs (.exportHtml doc) .confToml html
      (by simp)).trans h2
  have e3 : renderAll ext (fs.writeFile (.exportHtml doc) html).readToString
      (withAppendedBlock conf
        { content_file := some (.docFile (doc ++ ".md")), format := some "md" }) =
      .ok html := by
    rw [renderAll_congr ext (fs.writeFile (.exportHtml doc) html).readToString
      fs.readToString _ ?_]
    · exact h4
    · intro p hp
      rw [blockPaths_withAppendedBlock] at hp
      have hne : p ≠ Path.exportHtml doc := by
        rcases List.mem_append.mp hp with hA | hB
        · exact fun he => hnotin (he ▸ hA)
        · have : p = Path.docFile (doc ++ ".md") := by simpa using hB
          subst this
          simp
      exact readToString_writeFile_ne fs (.exportHtml doc) p html hne
  simp [cli_export, e1, e2, h3, e3]

theorem export_idempotent_witness :
    (cli_export (mkExt fun _ => some {})
        ((cli_export (mkExt fun _ => some {})
            { files := [(.docFile "post.md", .text "# hi"), (.confToml, .text "t")],
              docDir := some [] } "post").2) "post").1 =
      (cli_export (mkExt fun _ => some {})
        { files := [(.docFile "post.md", .text "# hi"), (.confToml, .text "t")],
          docDir := some [] } "post").1 :=
  export_idempotent (mkExt fun _ => some {})
    { files := [(.docFile "post.md", .text "# hi"), (.confToml, .text "t")],
      docDir := some [] } "post"
    (fun conf h => by
      have hc : some ({} : Conf) = some conf := by
        rw [← h]
        rfl
      cases hc
      simp [Conf.blockPaths])

end Adduce
